import Mathlib

/-!
Shallow embedding of `src/sync_media.py` (class `Control`), the one-shot
batch job that stages media files into the `../akamai` scratch tree and
mirrors them to a remote host with rsync.  Pure functions of the script are
translated into Lean functions; the effectful parts (subprocess calls,
filesystem writes, log output) are modelled by explicit traces of the
commands executed, artifacts written and log lines emitted, with the
outcomes of the external tools passed in as parameters.
-/

namespace SyncMedia

/-! ## Constants of `Control` -/

/-- `Control.IMAGE_WIDTHS = 571, 750`. -/
def IMAGE_WIDTHS : List Nat := [571, 750]

/-- `Control.JPEG_QUALITY = 80`. -/
def JPEG_QUALITY : Nat := 80

/-- `Control.KEYS = "SSH_AUTH_SOCK", "SSH_AGENT_PID"`. -/
def KEYS : List String := ["SSH_AUTH_SOCK", "SSH_AGENT_PID"]

/-! ## Python primitives used by the script -/

/-- Python 3 `round` on an exact rational: round half to even
(banker's rounding), as applied in `stage` to `width * ratio`. -/
def pyRound (q : ℚ) : ℤ :=
  let f := ⌊q⌋
  let r := q - (f : ℚ)
  if r < 1/2 then f
  else if 1/2 < r then f + 1
  else if f % 2 = 0 then f else f + 1

/-- Value of a digit run possibly containing single interior underscores,
continuing from accumulator `acc`; `none` when the run is malformed.
Helper for `pyDigits`. -/
def pyDigitsGo (acc : Nat) : List Char → Option Nat
  | [] => some acc
  | c :: rest =>
    if c.isDigit then pyDigitsGo (acc * 10 + (c.toNat - 48)) rest
    else if c = '_' then
      match rest with
      | d :: rest2 =>
        if d.isDigit then pyDigitsGo (acc * 10 + (d.toNat - 48)) rest2 else none
      | [] => none
    else none

/-- A nonempty digit run (underscores allowed between digits), as accepted
by Python's `int`. -/
def pyDigits : List Char → Option Nat
  | [] => none
  | c :: rest => if c.isDigit then pyDigitsGo (c.toNat - 48) rest else none

/-- ASCII whitespace stripped by Python's `int` before parsing. -/
def isPySpace (c : Char) : Bool :=
  c = ' ' || c = '\t' || c = '\n' || c = '\r' ||
    c = (Char.ofNat 11) || c = (Char.ofNat 12)

/-- Strip leading and trailing whitespace from a character list, as
Python's `int` does to its string argument. -/
def stripChars (cs : List Char) : List Char :=
  ((cs.dropWhile isPySpace).reverse.dropWhile isPySpace).reverse

/-- Python `int(s)` applied to a string: strip surrounding whitespace,
optional sign, then a nonempty digit run; `none` models the `ValueError`
raised on any other input.  Used on `path.stem` in `Control.stage`. -/
def pyInt (s : String) : Option Int :=
  match stripChars s.data with
  | '+' :: rest => (pyDigits rest).map Int.ofNat
  | '-' :: rest => (pyDigits rest).map fun n => -(n : Int)
  | cs => (pyDigits cs).map Int.ofNat

/-- Split a character list at every occurrence of the separator character,
Python `str.split(sep)` semantics for the one-character separators `";"`
and `"="` used in `__start_ssh_agent`. -/
def splitOnChar (sep : Char) : List Char → List (List Char)
  | [] => [[]]
  | c :: rest =>
    if c = sep then [] :: splitOnChar sep rest
    else
      match splitOnChar sep rest with
      | g :: gs => (c :: g) :: gs
      | [] => [[c]]

/-- Whether the first list is an initial segment of the second. -/
def hasPrefixChars : List Char → List Char → Bool
  | [], _ => true
  | _ :: _, [] => false
  | p :: ps, c :: cs => p = c && hasPrefixChars ps cs

/-- Python `line.startswith(key)`. -/
def pyStartsWith (line key : String) : Bool :=
  hasPrefixChars key.data line.data

/-! ## Media transcoder (`Control.stage`) -/

/-- Decoded image metadata as PIL's `Image.open` reports it: pixel
dimensions and color mode string (e.g. `"RGB"`, `"P"`). -/
structure Img where
  width : Nat
  height : Nat
  mode : String
deriving DecidableEq, Repr

/-- A source directory entry from `self.blobs.glob("*")`: its filename stem
and suffix (pathlib semantics), plus the image metadata PIL would decode
from it when it is not an mp3. -/
structure Blob where
  stem : String
  suffix : String
  image : Img
deriving DecidableEq, Repr

/-- One staged artifact: either the hard link `audio/<name>` created for an
mp3 blob, or a JPEG `images/<name>` saved with the recorded pixel size,
color mode, quality, and whether it came from a `LANCZOS` resize. -/
inductive Artifact where
  | audioLink (name : String)
  | jpeg (name : String) (width height : Nat) (mode : String)
      (quality : Nat) (lanczosResized : Bool)
deriving DecidableEq, Repr

/-- The `quality` option the artifact was saved with (`none` for the hard
link, which copies bytes verbatim). -/
def Artifact.jpegQuality : Artifact → Option Nat
  | .audioLink _ => none
  | .jpeg _ _ _ _ q _ => some q

/-- Height computed in `stage`: `ratio = image.height / image.width`, then
`int(round(width * ratio))`, on exact rationals. -/
def scaledHeight (width origW origH : Nat) : Nat :=
  (pyRound ((width : ℚ) * ((origH : ℚ) / (origW : ℚ)))).toNat

/-- The image branch of `Control.stage` for document id `docId`: convert
palette mode to RGB, save the full-size JPEG `<id>.jpg`, then for each
target width save `<id>-<width>.jpg`, resizing with `LANCZOS` only when
the target width is strictly below the source width and reusing the
full-size image otherwise.  Every save uses `JPEG_QUALITY`. -/
def imageArtifacts (docId : Int) (img : Img) : List Artifact :=
  let img := if img.mode = "P" then { img with mode := "RGB" } else img
  Artifact.jpeg (toString docId ++ ".jpg") img.width img.height img.mode
      JPEG_QUALITY false
    :: IMAGE_WIDTHS.map fun w =>
      if w < img.width then
        Artifact.jpeg (toString docId ++ "-" ++ toString w ++ ".jpg") w
          (scaledHeight w img.width img.height) img.mode JPEG_QUALITY true
      else
        Artifact.jpeg (toString docId ++ "-" ++ toString w ++ ".jpg")
          img.width img.height img.mode JPEG_QUALITY false

/-- Processing of a single blob in the `stage` loop: parse the stem as an
integer (a `ValueError` is fatal), then hard-link mp3 files into `audio/`
and transcode everything else as an image. -/
def stageOne (b : Blob) : Except String (List Artifact) :=
  match pyInt b.stem with
  | none => .error ("invalid literal for int() with base 10: " ++ b.stem)
  | some docId =>
    if b.suffix = ".mp3" then
      .ok [Artifact.audioLink (toString docId ++ ".mp3")]
    else
      .ok (imageArtifacts docId b.image)

/-- The `stage` loop over the blob directory: artifacts written so far, the
running `self.count`, and the pending exception if an entry failed.  On
failure the loop aborts, keeping earlier artifacts and counter value. -/
def stageList (blobs : List Blob) (acc : List Artifact) (count : Nat) :
    List Artifact × Nat × Option String :=
  match blobs with
  | [] => (acc, count, none)
  | b :: rest =>
    match stageOne b with
    | .error e => (acc, count, some e)
    | .ok arts => stageList rest (acc ++ arts) (count + 1)

/-! ## Staging area manager (`akamai` / `audio` / `images` properties) -/

/-- The staging directory tree `../akamai`: its subdirectories and staged
files. -/
structure StagingArea where
  dirs : List String
  files : List Artifact
deriving DecidableEq, Repr

/-- `shutil.rmtree` guarded by `akamai.exists()`: whatever was there, the
tree is gone afterwards. -/
def rmtreeIfExists (fs : Option StagingArea) : Option StagingArea :=
  match fs with
  | some _ => none
  | none => none

/-- `dir.mkdir(parents=True)` for a subdirectory of the staging root,
creating the root alongside when missing. -/
def mkdirParents (fs : Option StagingArea) (d : String) : StagingArea :=
  match fs with
  | none => { dirs := [d], files := [] }
  | some s => { s with dirs := if d ∈ s.dirs then s.dirs else s.dirs ++ [d] }

/-- Eager composite of the three cleanup effects (the guarded `rmtree`
plus the two `mkdir(parents=True)` calls).  It is used only by the
run-controller trace below, which consumes nothing but the counter, error
and log structure of a staging phase; the faithful lazy on-disk semantics
of the `cached_property` setup (cleanup on first access inside the loop)
is modelled by `DiskState` and `stageRunLazy` further down. -/
def ensureClean (prior : Option StagingArea) : StagingArea :=
  let fs := rmtreeIfExists prior
  mkdirParents (some (mkdirParents fs "audio")) "images"

/-- A staging phase as the run controller consumes it: the transcoding
loop with `self.count` starting at `0`, yielding the final counter and
the pending exception if any entry failed.  The `StagingArea` component
uses the eager `ensureClean` composite and is not consumed by
`runControl`; the disk-level lifecycle is covered by `stageRunLazy`. -/
def stageRun (blobs : List Blob) (prior : Option StagingArea) :
    StagingArea × Nat × Option String :=
  let area := ensureClean prior
  let (arts, count, err) := stageList blobs [] 0
  ({ area with files := arts }, count, err)

/-! ## Lazy staging-area lifecycle (`akamai`/`audio`/`images` as cached
properties) -/

/-- Path of a staged artifact below the staging root. -/
def Artifact.path : Artifact → String
  | .audioLink n => "audio/" ++ n
  | .jpeg n _ _ _ _ _ => "images/" ++ n

/-- On-disk state of `../akamai` during a run, together with the
memoisation flags of the three `cached_property` attributes: `akamai`
(whose first access performs the guarded `rmtree`), `audio` and `images`
(whose first access performs `mkdir(parents=True)`).  `tree = none` means
the root does not exist on disk; until an attribute is first accessed
inside the staging loop, the prior tree is untouched. -/
structure DiskState where
  akamaiCached : Bool
  audioCached : Bool
  imagesCached : Bool
  tree : Option StagingArea
deriving DecidableEq, Repr

/-- First access of `self.akamai` deletes the prior tree when it exists;
later accesses return the cached path without touching the disk. -/
def accessAkamai (s : DiskState) : DiskState :=
  if s.akamaiCached then s
  else { s with akamaiCached := true, tree := rmtreeIfExists s.tree }

/-- First access of `self.audio` evaluates `self.akamai` and then creates
`audio` with parents; later accesses are pure. -/
def accessAudio (s : DiskState) : DiskState :=
  if s.audioCached then s
  else
    let s2 := accessAkamai s
    { s2 with audioCached := true, tree := some (mkdirParents s2.tree "audio") }

/-- First access of `self.images` evaluates `self.akamai` and then
creates `images` with parents; later accesses are pure. -/
def accessImages (s : DiskState) : DiskState :=
  if s.imagesCached then s
  else
    let s2 := accessAkamai s
    { s2 with imagesCached := true, tree := some (mkdirParents s2.tree "images") }

/-- Write (or overwrite) one artifact below the staging root.  In the
staged flows every write follows the `mkdir` of its directory, so the
missing-root branch is unreachable. -/
def writeFile (s : DiskState) (a : Artifact) : DiskState :=
  match s.tree with
  | none => s
  | some t =>
    { s with tree := some { t with
        files := (t.files.filter fun x => x.path ≠ a.path) ++ [a] } }

/-- One pass of the `stage` loop body acting on the disk: parse the stem,
then either touch `self.audio` and hard-link the mp3, or touch
`self.images` and save the full-size and scaled JPEGs. -/
def stageEntry (s : DiskState) (b : Blob) : Except String DiskState :=
  match pyInt b.stem with
  | none => .error ("invalid literal for int() with base 10: " ++ b.stem)
  | some docId =>
    if b.suffix = ".mp3" then
      .ok (writeFile (accessAudio s)
        (Artifact.audioLink (toString docId ++ ".mp3")))
    else
      .ok ((imageArtifacts docId b.image).foldl writeFile (accessImages s))

/-- The `stage` loop over the blob directory, tracking the disk state and
`self.count`; a failing entry aborts the loop with the pending
exception. -/
def stageLoop (blobs : List Blob) (s : DiskState) (count : Nat) :
    DiskState × Nat × Option String :=
  match blobs with
  | [] => (s, count, none)
  | b :: rest =>
    match stageEntry s b with
    | .error e => (s, count, some e)
    | .ok s2 => stageLoop rest s2 (count + 1)

/-- A staging phase on a fresh `Control` object (no property cached yet)
over an arbitrary prior on-disk tree: nothing is deleted or created until
an entry first touches `audio` or `images`. -/
def stageRunLazy (blobs : List Blob) (prior : Option StagingArea) :
    DiskState × Nat × Option String :=
  stageLoop blobs ⟨false, false, false, prior⟩ 0

/-! ## Credential agent bridge -/

/-- Contents of the `.secrets.json` fallback file: absent, unparsable JSON
(`json.loads` raises), or a JSON object whose `AKAMAI_KEY` field is absent
or holds a string. -/
inductive Secrets where
  | missing
  | invalidJson
  | object (akamaiKey : Option String)
deriving DecidableEq, Repr

/-- The two exceptions `key_data` can raise: `RuntimeError("missing SSH
key")`, or the `json.loads` decode error from a corrupt fallback file. -/
inductive KeyErr where
  | missingKey
  | jsonError
deriving DecidableEq, Repr

/-- Python truthiness of `environ.get` / `dict.get` results: `None` and the
empty string are falsy. -/
def falsy : Option String → Bool
  | none => true
  | some s => s = ""

/-- `Control.key_data`: take `AKAMAI_KEY` from the environment; when falsy,
consult `.secrets.json` if it exists (parse errors propagate) and take its
`AKAMAI_KEY` field; when the result is still falsy, raise
`RuntimeError("missing SSH key")`. -/
def key_data (env : Option String) (secrets : Secrets) : Except KeyErr String :=
  let key := env
  let step : Except KeyErr (Option String) :=
    if falsy key then
      match secrets with
      | .missing => .ok key
      | .invalidJson => .error .jsonError
      | .object k => .ok k
    else .ok key
  match step with
  | .error e => .error e
  | .ok (some s) => if s = "" then .error .missingKey else .ok s
  | .ok none => .error .missingKey

/-- The value extracted from one agent output line:
`line.split(";")[0].split("=")[1]`; `none` models the `IndexError` raised
when the first `;`-segment contains no `=`. -/
def extractValue (line : String) : Option String :=
  match splitOnChar '=' ((splitOnChar ';' line.data).headD []) with
  | _ :: v :: _ => some (String.mk v)
  | _ => none

/-- `environ[k] = v` on the environment table modelled as an association
list. -/
def setEnv (env : List (String × String)) (k v : String) :
    List (String × String) :=
  (env.filter fun p => p.1 ≠ k) ++ [(k, v)]

/-- The inner loop of `Control.__start_ssh_agent` for one stdout line: for
each of the two `KEYS`, if the line starts with that key, install the
extracted value into the environment; a line starting with a key but
yielding no value raises `IndexError`. -/
def processAgentLine (env : List (String × String)) (line : String) :
    Except String (List (String × String)) :=
  KEYS.foldlM
    (fun e k =>
      if pyStartsWith line k then
        match extractValue line with
        | some v => .ok (setEnv e k v)
        | none => .error "list index out of range"
      else .ok e)
    env

/-- `Control.__start_ssh_agent` applied to the lines of the agent
subprocess's standard output: fold every line through the key-matching
loop, updating the process environment. -/
def startSshAgent (lines : List String) (env : List (String × String)) :
    Except String (List (String × String)) :=
  lines.foldlM processAgentLine env

/-! ## Transfer invoker (`Control.rsync`) and the sync phase -/

/-- `Control.rsync`: the argument vector of the transfer invocation. -/
def rsync (host : String) (checksums : Bool) : List String :=
  let check := if checksums then "--checksum" else "--size-only"
  ["rsync", "--delete", check, "-aze", "ssh", "../akamai/",
    "sshacs@" ++ host ++ ":media"]

/-- The subprocesses `Control.sync` can spawn, in order. -/
inductive Cmd where
  | sshAgent
  | sshAdd
  | rsyncCmd
deriving DecidableEq, Repr

/-- Log lines emitted through `self.logger` during a run, with the counter
value they report. -/
inductive LogEvent where
  | stagedLog (count : Nat)
  | syncingLog
  | syncedLog (count : Nat)
  | processedLog (count : Nat)
deriving DecidableEq, Repr

/-- The exceptions that can escape the sync phase. -/
inductive SyncErr where
  | agentParse
  | keyErr (e : KeyErr)
  | sshAddFailed
  | rsyncFailed
deriving DecidableEq, Repr

/-- Outcome of the sync phase: which subprocesses actually ran, which log
lines were written, and the escaping exception if any. -/
structure SyncResult where
  executed : List Cmd
  logs : List LogEvent
  err : Option SyncErr
deriving DecidableEq, Repr

/-- `Control.sync`: log the `syncing` line, run `ssh-agent -s` and parse
its output, resolve `key_data` (raising before `ssh-add` is spawned when
it fails), run `ssh-add -` (non-zero exit is fatal), then run the rsync
invocation with `check=True`; on success log the `synced` line.
`agentLines` is the agent's stdout split into lines; `sshAddExit` and
`rsyncExit` are the external tools' exit statuses. -/
def syncPhase (count : Nat) (agentLines : List String) (env : Option String)
    (secrets : Secrets) (sshAddExit rsyncExit : Nat) : SyncResult :=
  let logs := [LogEvent.syncingLog]
  let executed := [Cmd.sshAgent]
  match startSshAgent agentLines [] with
  | .error _ => ⟨executed, logs, some .agentParse⟩
  | .ok _ =>
    match key_data env secrets with
    | .error e => ⟨executed, logs, some (.keyErr e)⟩
    | .ok _ =>
      let executed := executed ++ [Cmd.sshAdd]
      if sshAddExit ≠ 0 then ⟨executed, logs, some .sshAddFailed⟩
      else
        let executed := executed ++ [Cmd.rsyncCmd]
        if rsyncExit ≠ 0 then ⟨executed, logs, some .rsyncFailed⟩
        else ⟨executed, logs ++ [LogEvent.syncedLog count], none⟩

/-! ## Run controller (`Control.run`) and the `__main__` handler -/

/-- An exception escaping `Control.run`: from the stage phase or from the
sync phase. -/
inductive RunErr where
  | stageErr (e : String)
  | syncErr (e : SyncErr)
deriving DecidableEq, Repr

/-- `Control.run`: stage unless `--staged` was given, then sync, then log
the `processed` summary line only when staging happened this run.
Exceptions abort the remainder and propagate. -/
def runControl (staged : Bool) (blobs : List Blob) (prior : Option StagingArea)
    (agentLines : List String) (env : Option String) (secrets : Secrets)
    (sshAddExit rsyncExit : Nat) : List LogEvent × Option RunErr :=
  if staged then
    let s := syncPhase 0 agentLines env secrets sshAddExit rsyncExit
    (s.logs, s.err.map RunErr.syncErr)
  else
    match stageRun blobs prior with
    | (_, _, some e) => ([], some (.stageErr e))
    | (_, count, none) =>
      let logs := [LogEvent.stagedLog count]
      let s := syncPhase count agentLines env secrets sshAddExit rsyncExit
      match s.err with
      | some e => (logs ++ s.logs, some (.syncErr e))
      | none => (logs ++ s.logs ++ [LogEvent.processedLog count], none)

/-- Effects of the `__main__` exception handler. -/
inductive MainEffect where
  | logException
  | consoleEcho
deriving DecidableEq, Repr

/-- The `__main__` block: run the controller; when it raises, log the
exception via `logger.exception` and echo to stderr when verbose.  The
handler swallows the exception, so the interpreter finishes the script
normally and the process exit status is `0` in both branches. -/
def mainEntry (runRaises verbose : Bool) : List MainEffect × Nat :=
  if runRaises then
    (MainEffect.logException ::
      (if verbose then [MainEffect.consoleEcho] else []), 0)
  else ([], 0)

/-! ## Helper lemmas -/

/-- A blob whose stem parses as an integer is staged without raising. -/
theorem stageOne_isOk (b : Blob) (h : (pyInt b.stem).isSome = true) :
    ∃ arts, stageOne b = Except.ok arts := by
  rcases hd : pyInt b.stem with _ | d
  · rw [hd] at h; simp at h
  · by_cases hs : b.suffix = ".mp3"
    · exact ⟨[Artifact.audioLink (toString d ++ ".mp3")], by simp [stageOne, hd, hs]⟩
    · exact ⟨imageArtifacts d b.image, by simp [stageOne, hd, hs]⟩

/-- When every stem parses, the stage loop finishes without an exception
and increments the counter once per entry. -/
theorem stageList_all_ok (blobs : List Blob) (acc : List Artifact)
    (count : Nat) (h : ∀ x ∈ blobs, (pyInt x.stem).isSome = true) :
    (stageList blobs acc count).2.1 = count + blobs.length ∧
    (stageList blobs acc count).2.2 = none := by
  induction blobs generalizing acc count with
  | nil => simp [stageList]
  | cons b rest ih =>
    obtain ⟨arts, harts⟩ := stageOne_isOk b (h b (by simp))
    rw [stageList, harts]
    obtain ⟨h1, h2⟩ := ih (acc ++ arts) (count + 1) fun x hx => h x (by simp [hx])
    refine ⟨?_, h2⟩
    rw [h1]; simp; omega

/-! ## C1 -/

/-- C1: the claim says an uncaught exception makes the process terminate
with a non-zero exit status.  In the code the `__main__` handler logs the
exception (echoing to the console when verbose) and then swallows it, so
the interpreter finishes the script and the exit status is `0` both on a
failing run and on a clean one. -/
theorem C1_exit_status_zero_even_on_error :
    mainEntry true false = ([MainEffect.logException], 0) ∧
    mainEntry true true = ([MainEffect.logException, MainEffect.consoleEcho], 0) ∧
    mainEntry false false = ([], 0) := by
  exact ⟨rfl, rfl, rfl⟩

/-! ## C2 -/

/-- C2 counterexample: the claim says `start_agent` raises no error for
every possible agent stdout, but an output line that starts with a
recognized variable name yet has no `=` in its first `;`-segment makes
`line.split(";")[0].split("=")[1]` raise `IndexError`. -/
theorem C2_agent_output_counterexample :
    startSshAgent ["SSH_AUTH_SOCK"] [] =
      Except.error "list index out of range" := by
  rfl

/-- Well-formed line processing never raises: one line either updates the
environment (when it starts with a key and a value can be extracted) or
leaves it alone. -/
theorem processAgentLine_isOk (env : List (String × String)) (line : String)
    (h : ∀ k ∈ KEYS, pyStartsWith line k = true →
      (extractValue line).isSome = true) :
    ∃ e2, processAgentLine env line = Except.ok e2 := by
  have h1 := h "SSH_AUTH_SOCK" (by simp [KEYS])
  have h2 := h "SSH_AGENT_PID" (by simp [KEYS])
  rcases hv : extractValue line with _ | v
  · have hs1 : pyStartsWith line "SSH_AUTH_SOCK" = false := by
      cases hx : pyStartsWith line "SSH_AUTH_SOCK"
      · rfl
      · have := h1 hx; rw [hv] at this; simp at this
    have hs2 : pyStartsWith line "SSH_AGENT_PID" = false := by
      cases hx : pyStartsWith line "SSH_AGENT_PID"
      · rfl
      · have := h2 hx; rw [hv] at this; simp at this
    simp only [processAgentLine, KEYS, List.foldlM, hs1, hs2, hv]
    exact ⟨env, rfl⟩
  · cases hs1 : pyStartsWith line "SSH_AUTH_SOCK" <;>
      cases hs2 : pyStartsWith line "SSH_AGENT_PID" <;>
      simp only [processAgentLine, KEYS, List.foldlM, hs1, hs2, hv] <;>
      exact ⟨_, rfl⟩

/-- A line starting with neither key leaves the environment unchanged. -/
theorem processAgentLine_skip (env : List (String × String)) (line : String)
    (h : ∀ k ∈ KEYS, pyStartsWith line k = false) :
    processAgentLine env line = Except.ok env := by
  have h1 := h "SSH_AUTH_SOCK" (by simp [KEYS])
  have h2 := h "SSH_AGENT_PID" (by simp [KEYS])
  simp only [processAgentLine, KEYS, List.foldlM, h1, h2]
  rfl

/-- C2 (amended): provided every stdout line that begins with a recognized
variable name carries an `=` in its first `;`-segment, `start_agent`
raises no error; lines not beginning with either recognized name are
ignored, and when no line matches, the bridge sets no environment
variables and returns normally.  (A matching line with no extractable
value raises an uncaught `IndexError`; see the counterexample.) -/
theorem C2_agent_output_tolerance (lines : List String)
    (env : List (String × String))
    (h : ∀ l ∈ lines, ∀ k ∈ KEYS, pyStartsWith l k = true →
      (extractValue l).isSome = true) :
    (∃ e, startSshAgent lines env = Except.ok e) ∧
    ((∀ l ∈ lines, ∀ k ∈ KEYS, pyStartsWith l k = false) →
      startSshAgent lines env = Except.ok env) := by
  constructor
  · induction lines generalizing env with
    | nil => exact ⟨env, rfl⟩
    | cons l rest ih =>
      obtain ⟨e2, he2⟩ := processAgentLine_isOk env l (h l (List.mem_cons_self l rest))
      obtain ⟨e3, he3⟩ := ih e2 fun x hx => h x (List.mem_cons_of_mem l hx)
      refine ⟨e3, ?_⟩
      rw [startSshAgent] at he3 ⊢
      rw [List.foldlM, he2]
      exact he3
  · intro hnone
    induction lines generalizing env with
    | nil => rfl
    | cons l rest ih =>
      have hskip := processAgentLine_skip env l (hnone l (List.mem_cons_self l rest))
      have htail := ih env (fun x hx => h x (List.mem_cons_of_mem l hx))
        (fun x hx => hnone x (List.mem_cons_of_mem l hx))
      rw [startSshAgent] at htail ⊢
      rw [List.foldlM, hskip]
      exact htail

/-- C2 witness: a realistic `ssh-agent -s` output (one matching line, one
informational line) satisfies the well-formedness hypothesis, and the
bridge processes it without raising. -/
theorem C2_agent_output_tolerance_witness :
    (∀ l ∈ (["SSH_AUTH_SOCK=/tmp/agent.7; export SSH_AUTH_SOCK;",
        "echo Agent pid 99;"] : List String),
      ∀ k ∈ KEYS, pyStartsWith l k = true →
        (extractValue l).isSome = true) ∧
    ((∃ e, startSshAgent ["SSH_AUTH_SOCK=/tmp/agent.7; export SSH_AUTH_SOCK;",
        "echo Agent pid 99;"] [] = Except.ok e) ∧
    ((∀ l ∈ (["SSH_AUTH_SOCK=/tmp/agent.7; export SSH_AUTH_SOCK;",
        "echo Agent pid 99;"] : List String),
      ∀ k ∈ KEYS, pyStartsWith l k = false) →
      startSshAgent ["SSH_AUTH_SOCK=/tmp/agent.7; export SSH_AUTH_SOCK;",
        "echo Agent pid 99;"] [] = Except.ok [])) :=
  ⟨by decide, C2_agent_output_tolerance _ _ (by decide)⟩

/-! ## C3 -/

/-- The height computed by `stage` through `ratio = H / W` equals the
height `round(T * H / W)` stated by the spec, exactly over the rationals. -/
theorem scaledHeight_eq (w origW origH : Nat) :
    scaledHeight w origW origH =
      (pyRound ((w : ℚ) * (origH : ℚ) / (origW : ℚ))).toNat := by
  simp [scaledHeight, mul_div_assoc]

/-- C3: for a source image of width `W` and height `H` and each target
width `T` of `IMAGE_WIDTHS`: when `T < W` the staged variant
`<id>-<T>.jpg` has width `T` and height `round(T * H / W)` and comes from
a LANCZOS resize; when `T ≥ W` the full-size image is reused for that
name (dimensions unchanged, no upscaling); and every staged output is a
JPEG saved at quality 80. -/
theorem C3_image_variants (docId : Int) (W H T : Nat) (mode : String)
    (_hW : 0 < W) (hT : T ∈ IMAGE_WIDTHS) :
    (T < W →
      Artifact.jpeg (toString docId ++ "-" ++ toString T ++ ".jpg") T
          ((pyRound ((T : ℚ) * (H : ℚ) / (W : ℚ))).toNat)
          (if mode = "P" then "RGB" else mode) 80 true
        ∈ imageArtifacts docId ⟨W, H, mode⟩) ∧
    (W ≤ T →
      Artifact.jpeg (toString docId ++ "-" ++ toString T ++ ".jpg") W H
          (if mode = "P" then "RGB" else mode) 80 false
        ∈ imageArtifacts docId ⟨W, H, mode⟩) ∧
    (∀ a ∈ imageArtifacts docId ⟨W, H, mode⟩, a.jpegQuality = some 80) := by
  refine ⟨?_, ?_, ?_⟩
  · intro hTW
    rw [← scaledHeight_eq]
    by_cases hm : mode = "P" <;>
      simp only [imageArtifacts, hm, if_pos, if_neg, List.mem_cons] <;>
      refine Or.inr (List.mem_map.mpr ⟨T, hT, ?_⟩) <;>
      simp [hTW, JPEG_QUALITY]
  · intro hWT
    have hnot : ¬ T < W := not_lt.mpr hWT
    by_cases hm : mode = "P" <;>
      simp only [imageArtifacts, hm, if_pos, if_neg, List.mem_cons] <;>
      refine Or.inr (List.mem_map.mpr ⟨T, hT, ?_⟩) <;>
      simp [hnot, JPEG_QUALITY]
  · intro a ha
    by_cases hm : mode = "P" <;>
      simp only [imageArtifacts, hm, if_pos, if_neg, List.mem_cons,
        List.mem_map] at ha <;>
    · rcases ha with rfl | ⟨w, _, rfl⟩
      · rfl
      · by_cases hw : w < W <;> simp [hw, Artifact.jpegQuality, JPEG_QUALITY]

/-- C3 witness: the spec's own example, blob `42.png` of size 1000×500 in
palette mode; the 571-wide variant is 571×round(571·500/1000) from a
LANCZOS resize, the 750-wide variant exists via the same theorem at
target 750, and all outputs carry quality 80. -/
theorem C3_image_variants_witness :
    0 < 1000 ∧ 571 ∈ IMAGE_WIDTHS ∧
    ((571 < 1000 →
      Artifact.jpeg (toString (42 : Int) ++ "-" ++ toString 571 ++ ".jpg") 571
          ((pyRound ((571 : ℚ) * (500 : ℚ) / (1000 : ℚ))).toNat)
          (if "P" = "P" then "RGB" else "P") 80 true
        ∈ imageArtifacts 42 ⟨1000, 500, "P"⟩) ∧
    (1000 ≤ 571 →
      Artifact.jpeg (toString (42 : Int) ++ "-" ++ toString 571 ++ ".jpg") 1000 500
          (if "P" = "P" then "RGB" else "P") 80 false
        ∈ imageArtifacts 42 ⟨1000, 500, "P"⟩) ∧
    (∀ a ∈ imageArtifacts 42 ⟨1000, 500, "P"⟩, a.jpegQuality = some 80)) :=
  ⟨by decide, by decide,
    C3_image_variants 42 1000 500 571 "P" (by decide) (by decide)⟩

/-! ## C4 -/

/-- With no `AKAMAI_KEY` in the environment and a fallback that is missing
or lacks the field, `key_data` raises `RuntimeError("missing SSH key")`. -/
theorem key_data_missing (secrets : Secrets)
    (hsec : secrets = Secrets.missing ∨ secrets = Secrets.object none) :
    key_data none secrets = Except.error KeyErr.missingKey := by
  rcases hsec with rfl | rfl <;> rfl

/-- C4: when the `AKAMAI_KEY` environment variable is absent and
`.secrets.json` is missing or lacks the credential field, the sync phase
raises before the transfer: rsync is never among the executed
subprocesses, an exception always escapes, and whenever the agent-output
parsing itself survives, that exception is the missing-credential error
raised by `key_data`. -/
theorem C4_missing_credential_no_rsync (count : Nat) (agentLines : List String)
    (secrets : Secrets) (sshAddExit rsyncExit : Nat)
    (hsec : secrets = Secrets.missing ∨ secrets = Secrets.object none) :
    Cmd.rsyncCmd ∉
      (syncPhase count agentLines none secrets sshAddExit rsyncExit).executed ∧
    (syncPhase count agentLines none secrets sshAddExit rsyncExit).err.isSome
      = true ∧
    (∀ e, startSshAgent agentLines [] = Except.ok e →
      (syncPhase count agentLines none secrets sshAddExit rsyncExit).err =
        some (SyncErr.keyErr KeyErr.missingKey)) := by
  have hkey := key_data_missing secrets hsec
  rcases hagent : startSshAgent agentLines [] with e | e
  · refine ⟨?_, ?_, ?_⟩
    · simp [syncPhase, hagent]
    · simp [syncPhase, hagent]
    · exact fun e2 he2 => absurd he2 (by simp)
  · refine ⟨?_, ?_, ?_⟩
    · simp [syncPhase, hagent, hkey]
    · simp [syncPhase, hagent, hkey]
    · intro e2 _; simp [syncPhase, hagent, hkey]

/-- C4 witness: with an empty agent output, no environment key, a missing
secrets file and failing exit codes available, the transfer command is
never spawned and the missing-key error escapes. -/
theorem C4_missing_credential_no_rsync_witness :
    (Secrets.missing = Secrets.missing ∨
      Secrets.missing = Secrets.object none) ∧
    (Cmd.rsyncCmd ∉ (syncPhase 0 [] none Secrets.missing 0 0).executed ∧
    (syncPhase 0 [] none Secrets.missing 0 0).err.isSome = true ∧
    (∀ e, startSshAgent [] [] = Except.ok e →
      (syncPhase 0 [] none Secrets.missing 0 0).err =
        some (SyncErr.keyErr KeyErr.missingKey))) :=
  ⟨Or.inl rfl, C4_missing_credential_no_rsync 0 [] Secrets.missing 0 0 (Or.inl rfl)⟩

/-! ## C5 -/

/-- C5: the transfer command is exactly the rsync invocation with
`--delete`, the archive/compress/ssh-transport flags `-aze ssh`, source
`../akamai/` and destination `sshacs@<host>:media`; it contains
`--checksum` iff the checksums option is set and `--size-only` iff it is
not, never both. -/
theorem C5_rsync_invocation (host : String) (checksums : Bool) :
    rsync host checksums =
      ["rsync", "--delete",
        if checksums then "--checksum" else "--size-only",
        "-aze", "ssh", "../akamai/", "sshacs@" ++ host ++ ":media"] ∧
    ("--checksum" ∈ rsync host checksums ↔ checksums = true) ∧
    ("--size-only" ∈ rsync host checksums ↔ checksums = false) ∧
    ¬("--checksum" ∈ rsync host checksums ∧
      "--size-only" ∈ rsync host checksums) := by
  have h7 : ("sshacs@" : String).length = 7 := rfl
  have h6 : (":media" : String).length = 6 := rfl
  have hlen : ("sshacs@" ++ host ++ ":media").length = host.length + 13 := by
    rw [String.length_append, String.length_append, h7, h6]
    omega
  have h10 : ("--checksum" : String).length = 10 := rfl
  have h11 : ("--size-only" : String).length = 11 := rfl
  have hne1 : ¬ ("--checksum" = "sshacs@" ++ host ++ ":media") := by
    intro h
    have := congrArg String.length h
    rw [hlen, h10] at this
    omega
  have hne2 : ¬ ("--size-only" = "sshacs@" ++ host ++ ":media") := by
    intro h
    have := congrArg String.length h
    rw [hlen, h11] at this
    omega
  have hmem1 : ("--checksum" ∈ rsync host checksums ↔ checksums = true) := by
    cases checksums <;> simp [rsync, hne1]
  have hmem2 : ("--size-only" ∈ rsync host checksums ↔ checksums = false) := by
    cases checksums <;> simp [rsync, hne2]
  refine ⟨rfl, hmem1, hmem2, ?_⟩
  rintro ⟨ha, hb⟩
  rw [hmem1] at ha
  rw [hmem2] at hb
  rw [ha] at hb
  exact absurd hb (by decide)

/-! ## C6 -/

/-- C6 counterexample: the claim says staging always deletes the prior
root first and creates both `root/audio` and `root/images`, so that no
file from a previous, different blob set survives.  The cleanup lives in
lazy cached properties, so an empty blob directory leaves the prior tree
— including a stale artifact from another blob set — fully intact, and an
all-audio batch creates only the `audio` subdirectory. -/
theorem C6_lazy_cleanup_counterexample :
    (stageRunLazy [] (some ⟨["audio", "images"],
        [Artifact.audioLink "7.mp3"]⟩)).1.tree =
      some ⟨["audio", "images"], [Artifact.audioLink "7.mp3"]⟩ ∧
    (stageRunLazy [⟨"5", ".mp3", ⟨1, 1, "RGB"⟩⟩] none).1.tree =
      some ⟨["audio"], [Artifact.audioLink "5.mp3"]⟩ :=
  ⟨rfl, rfl⟩

/-- On a fresh controller, a first entry whose stem parses performs the
guarded `rmtree` before its first write, so the entry's outcome does not
depend on the prior tree. -/
theorem stageEntry_fresh_ignores_prior (b : Blob) (d : Int)
    (hd : pyInt b.stem = some d) (prior prior2 : Option StagingArea) :
    stageEntry ⟨false, false, false, prior⟩ b =
      stageEntry ⟨false, false, false, prior2⟩ b := by
  by_cases hs : b.suffix = ".mp3" <;>
    cases prior <;> cases prior2 <;>
    simp [stageEntry, hd, hs, accessAudio, accessImages, accessAkamai,
      rmtreeIfExists]

/-- A staging run over a nonempty batch whose first entry stages
successfully is independent of the prior state of the staging root. -/
theorem stageRunLazy_fresh_ignores_prior (b : Blob) (rest : List Blob)
    (prior prior2 : Option StagingArea)
    (hb : (pyInt b.stem).isSome = true) :
    stageRunLazy (b :: rest) prior = stageRunLazy (b :: rest) prior2 := by
  obtain ⟨d, hd⟩ := Option.isSome_iff_exists.mp hb
  have h := stageEntry_fresh_ignores_prior b d hd prior prior2
  have hok : ∃ s2, stageEntry ⟨false, false, false, prior⟩ b =
      Except.ok s2 := by
    by_cases hs : b.suffix = ".mp3"
    · exact ⟨writeFile (accessAudio ⟨false, false, false, prior⟩)
        (Artifact.audioLink (toString d ++ ".mp3")),
        by simp [stageEntry, hd, hs]⟩
    · exact ⟨(imageArtifacts d b.image).foldl writeFile
        (accessImages ⟨false, false, false, prior⟩),
        by simp [stageEntry, hd, hs]⟩
  obtain ⟨s2, hs2⟩ := hok
  have hs2b : stageEntry ⟨false, false, false, prior2⟩ b = Except.ok s2 := by
    rw [← h]; exact hs2
  simp only [stageRunLazy, stageLoop, hs2, hs2b]

/-- C6 (amended): the staging-area cleanup happens lazily, at the first
entry that needs it.  A nonempty batch whose first entry stages
successfully yields a result independent of the prior state of the root
(the prior tree is recursively deleted before the first artifact is
written, so no file from a previous, different blob set survives such a
run); running staging twice in a row on the same blob set leaves exactly
the same state as running it once; the first touch of `audio` (resp.
`images`) deletes the prior tree and creates exactly that subdirectory;
and with an empty blob directory nothing is deleted or created — the
prior tree survives. -/
theorem C6_lazy_staging_reset (b : Blob) (rest blobs : List Blob)
    (prior prior2 : Option StagingArea)
    (hb : (pyInt b.stem).isSome = true) :
    stageRunLazy (b :: rest) prior = stageRunLazy (b :: rest) prior2 ∧
    stageRunLazy blobs (stageRunLazy blobs prior).1.tree =
      stageRunLazy blobs prior ∧
    (accessAudio ⟨false, false, false, prior⟩).tree =
      some ⟨["audio"], []⟩ ∧
    (accessImages ⟨false, false, false, prior⟩).tree =
      some ⟨["images"], []⟩ ∧
    stageRunLazy [] prior = (⟨false, false, false, prior⟩, 0, none) := by
  refine ⟨stageRunLazy_fresh_ignores_prior b rest prior prior2 hb,
    ?_, ?_, ?_, ?_⟩
  · cases blobs with
    | nil => rfl
    | cons b2 rest2 =>
      rcases hd2 : pyInt b2.stem with _ | d2
      · have he : stageEntry ⟨false, false, false, prior⟩ b2 =
            Except.error
              ("invalid literal for int() with base 10: " ++ b2.stem) := by
          simp [stageEntry, hd2]
        have hrun : stageRunLazy (b2 :: rest2) prior =
            (⟨false, false, false, prior⟩, 0,
              some ("invalid literal for int() with base 10: " ++
                b2.stem)) := by
          simp only [stageRunLazy, stageLoop, he]
        rw [hrun]
        exact hrun
      · exact stageRunLazy_fresh_ignores_prior b2 rest2 _ prior
          (by rw [hd2]; rfl)
  · cases prior <;> rfl
  · cases prior <;> rfl
  · rfl

/-- C6 witness: with `5.mp3` as first entry, a stale prior tree and a
missing one give the same staging result; the idempotence, first-touch
and empty-batch facts of the amended claim hold at the stale prior. -/
theorem C6_lazy_staging_reset_witness :
    (pyInt "5").isSome = true ∧
    (stageRunLazy [⟨"5", ".mp3", ⟨1, 1, "RGB"⟩⟩]
        (some ⟨["audio", "images"], [Artifact.audioLink "7.mp3"]⟩) =
      stageRunLazy [⟨"5", ".mp3", ⟨1, 1, "RGB"⟩⟩] none ∧
    stageRunLazy []
        (stageRunLazy [] (some ⟨["audio", "images"],
          [Artifact.audioLink "7.mp3"]⟩)).1.tree =
      stageRunLazy [] (some ⟨["audio", "images"],
        [Artifact.audioLink "7.mp3"]⟩) ∧
    (accessAudio ⟨false, false, false, some ⟨["audio", "images"],
        [Artifact.audioLink "7.mp3"]⟩⟩).tree = some ⟨["audio"], []⟩ ∧
    (accessImages ⟨false, false, false, some ⟨["audio", "images"],
        [Artifact.audioLink "7.mp3"]⟩⟩).tree = some ⟨["images"], []⟩ ∧
    stageRunLazy [] (some ⟨["audio", "images"],
        [Artifact.audioLink "7.mp3"]⟩) =
      (⟨false, false, false, some ⟨["audio", "images"],
        [Artifact.audioLink "7.mp3"]⟩⟩, 0, none)) :=
  ⟨by decide, C6_lazy_staging_reset ⟨"5", ".mp3", ⟨1, 1, "RGB"⟩⟩ [] []
    (some ⟨["audio", "images"], [Artifact.audioLink "7.mp3"]⟩) none
    (by decide)⟩

/-! ## C7 -/

/-- C7: a directory entry whose stem is not a valid integer is fatal for
the whole batch: the stage loop stops there with the `ValueError` (no
skip-and-continue, the remaining entries are never examined), while the
artifacts already written for earlier entries remain in place and the
counter reflects only the earlier entries. -/
theorem C7_bad_stem_aborts_batch (pre : List Blob) (bad : Blob)
    (rest : List Blob) (acc : List Artifact) (count : Nat)
    (hpre : ∀ b ∈ pre, (pyInt b.stem).isSome = true)
    (hbad : pyInt bad.stem = none) :
    (stageList (pre ++ bad :: rest) acc count).2.2 =
      some ("invalid literal for int() with base 10: " ++ bad.stem) ∧
    (stageList (pre ++ bad :: rest) acc count).1 =
      (stageList pre acc count).1 ∧
    stageList (pre ++ bad :: rest) acc count =
      stageList (pre ++ [bad]) acc count ∧
    (stageList (pre ++ bad :: rest) acc count).2.1 = count + pre.length := by
  induction pre generalizing acc count with
  | nil =>
    have hb : stageOne bad =
        Except.error ("invalid literal for int() with base 10: " ++ bad.stem) := by
      simp [stageOne, hbad]
    simp [stageList, hb]
  | cons b pre2 ih =>
    obtain ⟨arts, harts⟩ := stageOne_isOk b (hpre b (List.mem_cons_self b pre2))
    have ih2 := ih (acc ++ arts) (count + 1)
      (fun x hx => hpre x (List.mem_cons_of_mem b hx))
    have hstep : stageList ((b :: pre2) ++ (bad :: rest)) acc count =
        stageList (pre2 ++ bad :: rest) (acc ++ arts) (count + 1) := by
      simp only [List.cons_append, stageList, harts]
      rfl
    have hstep2 : stageList (b :: pre2) acc count =
        stageList pre2 (acc ++ arts) (count + 1) := by
      simp only [stageList, harts]
    have hstep3 : stageList ((b :: pre2) ++ [bad]) acc count =
        stageList (pre2 ++ [bad]) (acc ++ arts) (count + 1) := by
      simp only [List.cons_append, stageList, harts]
      rfl
    rw [hstep, hstep2, hstep3]
    refine ⟨ih2.1, ih2.2.1, ih2.2.2.1, ?_⟩
    rw [ih2.2.2.2, List.length_cons]
    omega

/-- C7 witness: the entry `x.png` between `3.mp3` and `9.mp3` aborts the
batch with the `ValueError`, keeps the hard link staged for `3.mp3`, never
reaches `9.mp3`, and leaves the counter at one. -/
theorem C7_bad_stem_aborts_batch_witness :
    (∀ b ∈ ([⟨"3", ".mp3", ⟨1, 1, "RGB"⟩⟩] : List Blob),
      (pyInt b.stem).isSome = true) ∧
    pyInt "x" = none ∧
    ((stageList ([⟨"3", ".mp3", ⟨1, 1, "RGB"⟩⟩] ++
        ⟨"x", ".png", ⟨1, 1, "RGB"⟩⟩ :: [⟨"9", ".mp3", ⟨1, 1, "RGB"⟩⟩]) [] 0).2.2 =
      some ("invalid literal for int() with base 10: " ++ "x") ∧
    (stageList ([⟨"3", ".mp3", ⟨1, 1, "RGB"⟩⟩] ++
        ⟨"x", ".png", ⟨1, 1, "RGB"⟩⟩ :: [⟨"9", ".mp3", ⟨1, 1, "RGB"⟩⟩]) [] 0).1 =
      (stageList [⟨"3", ".mp3", ⟨1, 1, "RGB"⟩⟩] [] 0).1 ∧
    stageList ([⟨"3", ".mp3", ⟨1, 1, "RGB"⟩⟩] ++
        ⟨"x", ".png", ⟨1, 1, "RGB"⟩⟩ :: [⟨"9", ".mp3", ⟨1, 1, "RGB"⟩⟩]) [] 0 =
      stageList ([⟨"3", ".mp3", ⟨1, 1, "RGB"⟩⟩] ++
        [⟨"x", ".png", ⟨1, 1, "RGB"⟩⟩]) [] 0 ∧
    (stageList ([⟨"3", ".mp3", ⟨1, 1, "RGB"⟩⟩] ++
        ⟨"x", ".png", ⟨1, 1, "RGB"⟩⟩ :: [⟨"9", ".mp3", ⟨1, 1, "RGB"⟩⟩]) [] 0).2.1 =
      0 + 1) :=
  ⟨by decide, by decide,
    C7_bad_stem_aborts_batch [⟨"3", ".mp3", ⟨1, 1, "RGB"⟩⟩]
      ⟨"x", ".png", ⟨1, 1, "RGB"⟩⟩ [⟨"9", ".mp3", ⟨1, 1, "RGB"⟩⟩] [] 0
      (by decide) (by decide)⟩

/-! ## C8 -/

/-- The sync phase logs `syncing` on entry and `synced` exactly on
success. -/
theorem syncPhase_logs_shape (count : Nat) (agentLines : List String)
    (env : Option String) (secrets : Secrets) (a r : Nat) :
    (syncPhase count agentLines env secrets a r).logs =
      if (syncPhase count agentLines env secrets a r).err = none
      then [LogEvent.syncingLog, LogEvent.syncedLog count]
      else [LogEvent.syncingLog] := by
  rcases hagent : startSshAgent agentLines [] with e | e
  · simp [syncPhase, hagent]
  · rcases hkey : key_data env secrets with e2 | k
    · simp [syncPhase, hagent, hkey]
    · by_cases hadd : a = 0
      · by_cases hr : r = 0
        · simp [syncPhase, hagent, hkey, hadd, hr]
        · simp [syncPhase, hagent, hkey, hadd, hr]
      · simp [syncPhase, hagent, hkey, hadd]

/-- C8: on a run that finishes without an exception, the combined-totals
`processed` summary line appears if and only if the skip-staging flag is
unset; when it is unset, the log ends with the `synced` line immediately
followed by the summary, and when staging is skipped no summary is
written. -/
theorem C8_summary_iff_not_staged (staged : Bool) (blobs : List Blob)
    (prior : Option StagingArea) (agentLines : List String)
    (env : Option String) (secrets : Secrets) (sshAddExit rsyncExit : Nat)
    (h : (runControl staged blobs prior agentLines env secrets
      sshAddExit rsyncExit).2 = none) :
    (staged = true → ∀ c, LogEvent.processedLog c ∉
      (runControl staged blobs prior agentLines env secrets
        sshAddExit rsyncExit).1) ∧
    (staged = false → ∃ c pre2,
      (runControl staged blobs prior agentLines env secrets
        sshAddExit rsyncExit).1 =
        pre2 ++ [LogEvent.syncedLog c, LogEvent.processedLog c]) := by
  have hshape := syncPhase_logs_shape
  cases staged
  · refine ⟨fun hc => absurd hc (by simp), fun _ => ?_⟩
    rcases hstage : stageRun blobs prior with ⟨area, cnt, err⟩
    rcases err with _ | e
    · simp only [runControl, hstage] at h ⊢
      rcases herr : (syncPhase cnt agentLines env secrets
          sshAddExit rsyncExit).err with _ | e2
      · have hlog := hshape cnt agentLines env secrets sshAddExit rsyncExit
        rw [herr] at hlog
        simp only [if_pos rfl] at hlog
        simp only [herr, hlog]
        exact ⟨cnt, [LogEvent.stagedLog cnt, LogEvent.syncingLog], rfl⟩
      · simp [herr] at h
    · simp [runControl, hstage] at h
  · refine ⟨fun _ c => ?_, fun hc => absurd hc (by simp)⟩
    simp only [runControl] at h ⊢
    have herr : (syncPhase 0 agentLines env secrets
        sshAddExit rsyncExit).err = none := by
      rcases he : (syncPhase 0 agentLines env secrets
          sshAddExit rsyncExit).err with _ | e2
      · rfl
      · simp [he] at h
    have hlog := hshape 0 agentLines env secrets sshAddExit rsyncExit
    rw [herr] at hlog
    simp only [if_pos rfl] at hlog
    rw [hlog]
    simp

/-- C8 witness: a run with `--staged` set and a successful sync finishes
clean and writes no summary line. -/
theorem C8_summary_iff_not_staged_witness :
    (runControl true [] none [] (some "k") Secrets.missing 0 0).2 = none ∧
    ((true = true → ∀ c, LogEvent.processedLog c ∉
      (runControl true [] none [] (some "k") Secrets.missing 0 0).1) ∧
    (true = false → ∃ c pre2,
      (runControl true [] none [] (some "k") Secrets.missing 0 0).1 =
        pre2 ++ [LogEvent.syncedLog c, LogEvent.processedLog c])) :=
  ⟨by decide,
    C8_summary_iff_not_staged true [] none [] (some "k") Secrets.missing 0 0
      (by decide)⟩

/-! ## C9 -/

/-- C9: an `AKAMAI_KEY` environment variable holding the empty string is
treated exactly like an absent one: `key_data` gives the same result as
with no variable at all, and it raises the missing-credential error
precisely when the fallback file is absent, lacks the field, or holds an
empty value. -/
theorem C9_empty_env_key_as_absent (secrets : Secrets) :
    key_data (some "") secrets = key_data none secrets ∧
    (key_data (some "") secrets = Except.error KeyErr.missingKey ↔
      secrets = Secrets.missing ∨ secrets = Secrets.object none ∨
        secrets = Secrets.object (some "")) := by
  rcases secrets with _ | _ | k
  · refine ⟨rfl, ?_⟩
    rw [show key_data (some "") Secrets.missing =
      Except.error KeyErr.missingKey from rfl]
    simp
  · refine ⟨rfl, ?_⟩
    rw [show key_data (some "") Secrets.invalidJson =
      Except.error KeyErr.jsonError from rfl]
    simp
  · rcases k with _ | s
    · refine ⟨rfl, ?_⟩
      rw [show key_data (some "") (Secrets.object none) =
        Except.error KeyErr.missingKey from rfl]
      simp
    · refine ⟨rfl, ?_⟩
      by_cases hs : s = ""
      · subst hs
        rw [show key_data (some "") (Secrets.object (some "")) =
          Except.error KeyErr.missingKey from rfl]
        simp
      · rw [show key_data (some "") (Secrets.object (some s)) =
          if s = "" then Except.error KeyErr.missingKey else Except.ok s
          from rfl, if_neg hs]
        simp [hs]

/-! ## C10 -/

/-- C10: a source entry takes the audio path (one hard link named
`<id>.mp3`) exactly when its filename suffix is `.mp3`; any other suffix
goes down the image-decoding path; and the run counter advances once per
processed entry whichever path was taken. -/
theorem C10_audio_branch_iff_mp3 (blobs : List Blob) (acc : List Artifact)
    (count : Nat) (b : Blob) (d : Int)
    (hall : ∀ x ∈ blobs, (pyInt x.stem).isSome = true)
    (hd : pyInt b.stem = some d) :
    (stageOne b = Except.ok [Artifact.audioLink (toString d ++ ".mp3")] ↔
      b.suffix = ".mp3") ∧
    (b.suffix ≠ ".mp3" → stageOne b = Except.ok (imageArtifacts d b.image)) ∧
    (stageList blobs acc count).2.1 = count + blobs.length := by
  refine ⟨⟨?_, ?_⟩, ?_, (stageList_all_ok blobs acc count hall).1⟩
  · intro hok
    by_contra hsuf
    simp [stageOne, hd, hsuf, imageArtifacts] at hok
  · intro hsuf
    simp [stageOne, hd, hsuf]
  · intro hsuf
    simp [stageOne, hd, hsuf]

/-- C10 witness: in a two-entry directory, `5.mp3` takes the hard-link
path, `6.png` would take the image path, and the counter ends at two. -/
theorem C10_audio_branch_iff_mp3_witness :
    (∀ x ∈ ([⟨"5", ".mp3", ⟨1, 1, "RGB"⟩⟩, ⟨"6", ".png", ⟨4, 2, "RGB"⟩⟩] :
        List Blob), (pyInt x.stem).isSome = true) ∧
    pyInt "5" = some 5 ∧
    ((stageOne ⟨"5", ".mp3", ⟨1, 1, "RGB"⟩⟩ =
        Except.ok [Artifact.audioLink (toString (5 : Int) ++ ".mp3")] ↔
      (Blob.mk "5" ".mp3" ⟨1, 1, "RGB"⟩).suffix = ".mp3") ∧
    ((Blob.mk "5" ".mp3" ⟨1, 1, "RGB"⟩).suffix ≠ ".mp3" →
      stageOne ⟨"5", ".mp3", ⟨1, 1, "RGB"⟩⟩ =
        Except.ok (imageArtifacts 5 ⟨1, 1, "RGB"⟩)) ∧
    (stageList [⟨"5", ".mp3", ⟨1, 1, "RGB"⟩⟩, ⟨"6", ".png", ⟨4, 2, "RGB"⟩⟩]
        [] 0).2.1 = 0 + 2) :=
  ⟨by decide, by decide,
    C10_audio_branch_iff_mp3
      [⟨"5", ".mp3", ⟨1, 1, "RGB"⟩⟩, ⟨"6", ".png", ⟨4, 2, "RGB"⟩⟩] [] 0
      ⟨"5", ".mp3", ⟨1, 1, "RGB"⟩⟩ 5 (by decide) (by decide)⟩

end SyncMedia
